import Mathlib

/-! Verification of the PsyCheck ingestion endpoint.

The definitions below are a shallow embedding of `router.post('/upload')`
from src/server.js together with its SQLite-backed store (the tables
`definitions` and `submissions` created at startup). JSON bodies are
modelled by an inductive `JValue`; JavaScript truthiness, short-circuit
`||`/`&&` and the TypeError thrown by reading a property of `null` are
modelled explicitly; the two tables are association lists keyed the way
the SQL statements key them. The theorems settle the frozen claims about
classification, idempotency, the referential precondition and the
outcome-to-status mapping. -/

/-- A parsed JSON value, as delivered by `express.json()` to `req.body`. -/
inductive JValue where
  | null : JValue
  | bool : Bool → JValue
  | num  : Int → JValue
  | str  : String → JValue
  | arr  : List JValue → JValue
  | obj  : List (String × JValue) → JValue
  deriving Repr

/-- JavaScript truthiness of a defined value (`Boolean(v)`). -/
def truthy : JValue → Bool
  | .null => false
  | .bool b => b
  | .num n => n != 0
  | .str s => s != ""
  | .arr _ => true
  | .obj _ => true

/-- Truthiness of a possibly-undefined value (`none` models `undefined`). -/
def truthyOpt : Option JValue → Bool
  | none => false
  | some v => truthy v

mutual
/-- Structural equality of JSON values, modelling the equality SQLite
applies to the stored keys. -/
def JValue.beq : JValue → JValue → Bool
  | .null, .null => true
  | .bool a, .bool b => a == b
  | .num a, .num b => a == b
  | .str a, .str b => a == b
  | .arr a, .arr b => JValue.beqList a b
  | .obj a, .obj b => JValue.beqFields a b
  | _, _ => false

def JValue.beqList : List JValue → List JValue → Bool
  | [], [] => true
  | x :: xs, y :: ys => JValue.beq x y && JValue.beqList xs ys
  | _, _ => false

def JValue.beqFields : List (String × JValue) → List (String × JValue) → Bool
  | [], [] => true
  | (k1, v1) :: xs, (k2, v2) :: ys =>
      k1 == k2 && JValue.beq v1 v2 && JValue.beqFields xs ys
  | _, _ => false
end

/-- JavaScript property read `v.k` on a parsed JSON value: throws
(`.error`, a TypeError) on `null`, yields the field on an object, and
`undefined` (`none`) otherwise. -/
def getProp : JValue → String → Except Unit (Option JValue)
  | .null, _ => .error ()
  | .obj fields, k => .ok (fields.lookup k)
  | _, _ => .ok none

/-- Total property read on a value known to be defined and non-null. -/
def getPropD : JValue → String → Option JValue
  | .obj fields, k => fields.lookup k
  | _, _ => none

/-- Whether the JSON value carries the named field (key presence,
regardless of the field's own truthiness). -/
def hasField (v : JValue) (k : String) : Bool :=
  (getPropD v k).isSome

/-- The JavaScript value of `content.quiz && content.quiz.project` for a
non-null `content`, with short-circuit `&&` value semantics. -/
def quizProjectD (content : JValue) : Option JValue :=
  match getPropD content "quiz" with
  | none => none
  | some q => if truthy q then getPropD q "project" else some q

/-- The document's body type: a parsed top-level JSON object, a list of
key-value pairs in `Object.keys` order. -/
abbrev Doc := List (String × JValue)

/-- The expression `content.project || (content.quiz && content.quiz.project)`
of src/server.js line 86, with JavaScript short-circuit value semantics;
`.error` models a thrown TypeError (reading a property of `null`). -/
def projectNameOf (content : JValue) : Except Unit (Option JValue) :=
  match getProp content "project" with
  | .error e => .error e
  | .ok pv =>
    if truthyOpt pv then .ok pv
    else
      match getProp content "quiz" with
      | .error e => .error e
      | .ok qv =>
        if h : truthyOpt qv then
          match qv, h with
          | some q, _ => getProp q "project"
        else .ok qv

/-- One row of the `submissions` table (the server-assigned timestamp
column is not modelled; no claim mentions it). -/
structure SubmissionRow where
  id : String
  project_name : JValue
  payload : Doc

/-- The persistent store: the `definitions` table (keyed by
`project_name`) and the `submissions` table (keyed by `id`). -/
structure Store where
  definitions : List (JValue × Doc)
  submissions : List SubmissionRow

/-- The check `SELECT 1 FROM definitions WHERE project_name = ?` as a
Boolean. -/
def definitionExists (st : Store) (p : JValue) : Bool :=
  st.definitions.any (fun d => JValue.beq d.1 p)

/-- The statement `INSERT OR REPLACE INTO definitions` — deletes any row
with the same key, then inserts the new one. -/
def upsertDefinition (st : Store) (p : JValue) (payload : Doc) : Store :=
  { st with definitions :=
      (p, payload) :: st.definitions.filter (fun d => !(JValue.beq d.1 p)) }

/-- Whether a submission with this primary key already exists (the
condition under which the plain INSERT raises
`SQLITE_CONSTRAINT_PRIMARYKEY`). -/
def submissionExists (st : Store) (uid : String) : Bool :=
  st.submissions.any (fun r => r.id == uid)

/-- The statement `INSERT INTO submissions (id, project_name, payload)` in
the case where the key is fresh. -/
def insertSubmission (st : Store) (uid : String) (p : JValue) (payload : Doc) : Store :=
  { st with submissions := ⟨uid, p, payload⟩ :: st.submissions }

/-- The externally observable outcomes of the upload handler, one per
`res.status(...).send(...)` site in src/server.js. -/
inductive Outcome where
  | emptyJson       -- 400 "Empty JSON"
  | missingProject  -- 400 "Invalid JSON: 'project' field missing."
  | definitionSaved -- 200 "Definition Saved"
  | unknownProject  -- 412 "Precondition Failed: Project definition not found"
  | submissionSaved -- 200 "OK"
  | alreadySaved    -- 200 "Already Saved"
  | internalError   -- 500 "Internal Server Error" (outer catch-all)
  deriving Repr, DecidableEq

/-- The HTTP status code attached to each outcome. -/
def statusOf : Outcome → Nat
  | .emptyJson => 400
  | .missingProject => 400
  | .definitionSaved => 200
  | .unknownProject => 412
  | .submissionSaved => 200
  | .alreadySaved => 200
  | .internalError => 500

/-- The `router.post('/upload')` handler of src/server.js lines 75-139:
given the store and the parsed body, the response outcome and the new
store state. An `.error` from a property read models the thrown TypeError
reaching the outer `catch`, which answers 500 and performs no write. -/
def handleUpload (st : Store) (body : Doc) : Outcome × Store :=
  match body with
  | [] => (.emptyJson, st)
  | (uniqueID, content) :: _ =>
    match projectNameOf content with
    | .error _ => (.internalError, st)
    | .ok pn =>
      if truthyOpt pn then
        match getProp content "questions", getProp content "logic" with
        | .ok qs, .ok lg =>
          if truthyOpt qs || truthyOpt lg then
            (.definitionSaved, upsertDefinition st (pn.getD .null) body)
          else if definitionExists st (pn.getD .null) then
            if submissionExists st uniqueID then
              (.alreadySaved, st)
            else
              (.submissionSaved, insertSubmission st uniqueID (pn.getD .null) body)
          else
            (.unknownProject, st)
        | _, _ => (.internalError, st)
      else
        (.missingProject, st)

mutual
theorem JValue.beq_refl : ∀ v : JValue, JValue.beq v v = true
  | .null => rfl
  | .bool b => by simp [JValue.beq]
  | .num n => by simp [JValue.beq]
  | .str s => by simp [JValue.beq]
  | .arr xs => by simp [JValue.beq, JValue.beqList_refl xs]
  | .obj fs => by simp [JValue.beq, JValue.beqFields_refl fs]

theorem JValue.beqList_refl : ∀ xs : List JValue, JValue.beqList xs xs = true
  | [] => rfl
  | x :: xs => by simp [JValue.beqList, JValue.beq_refl x, JValue.beqList_refl xs]

theorem JValue.beqFields_refl :
    ∀ fs : List (String × JValue), JValue.beqFields fs fs = true
  | [] => rfl
  | (k, v) :: fs => by
      simp [JValue.beqFields, JValue.beq_refl v, JValue.beqFields_refl fs]
end

theorem truthyOpt_some (v : JValue) : truthyOpt (some v) = truthy v := rfl

theorem truthyOpt_none : truthyOpt none = false := rfl

theorem getProp_of_ne_null (v : JValue) (k : String) (h : v ≠ JValue.null) :
    getProp v k = .ok (getPropD v k) := by
  cases v <;> simp [getProp, getPropD] at h ⊢

theorem truthy_ne_null (v : JValue) (h : truthy v = true) : v ≠ JValue.null := by
  cases v <;> simp_all [truthy]

theorem getPropD_some_ne_null (v : JValue) (k : String) (x : JValue)
    (h : getPropD v k = some x) : v ≠ JValue.null := by
  cases v <;> simp_all [getPropD]

theorem getPropD_some_truthy (v : JValue) (k : String) (x : JValue)
    (h : getPropD v k = some x) : truthy v = true := by
  cases v <;> simp_all [getPropD, truthy]

theorem projectNameOf_of_ne_null (content : JValue) (hnn : content ≠ JValue.null) :
    projectNameOf content =
      .ok (if truthyOpt (getPropD content "project") then getPropD content "project"
           else quizProjectD content) := by
  unfold projectNameOf
  rw [getProp_of_ne_null content "project" hnn]
  by_cases hp : truthyOpt (getPropD content "project") = true
  · simp [hp]
  · rw [getProp_of_ne_null content "quiz" hnn]
    simp only [Bool.not_eq_true] at hp
    simp only [hp, if_false]
    unfold quizProjectD
    cases hq : getPropD content "quiz" with
    | none => simp [truthyOpt_none]
    | some q =>
      by_cases htq : truthy q = true
      · simp [truthyOpt_some, htq,
          getProp_of_ne_null q "project" (truthy_ne_null q htq)]
      · simp only [Bool.not_eq_true] at htq
        simp [truthyOpt_some, htq]

theorem handleUpload_definition (st : Store) (uid : String) (content : JValue)
    (rest : Doc) (p : JValue) (qs lg : Option JValue)
    (hp : projectNameOf content = .ok (some p)) (hpt : truthy p = true)
    (hq : getProp content "questions" = .ok qs)
    (hl : getProp content "logic" = .ok lg)
    (hd : (truthyOpt qs || truthyOpt lg) = true) :
    handleUpload st ((uid, content) :: rest) =
      (.definitionSaved, upsertDefinition st p ((uid, content) :: rest)) := by
  simp [handleUpload, hp, hq, hl, truthyOpt_some, hpt, hd]

theorem handleUpload_unknown (st : Store) (uid : String) (content : JValue)
    (rest : Doc) (p : JValue) (qs lg : Option JValue)
    (hp : projectNameOf content = .ok (some p)) (hpt : truthy p = true)
    (hq : getProp content "questions" = .ok qs)
    (hl : getProp content "logic" = .ok lg)
    (hd : (truthyOpt qs || truthyOpt lg) = false)
    (hex : definitionExists st p = false) :
    handleUpload st ((uid, content) :: rest) = (.unknownProject, st) := by
  simp [handleUpload, hp, hq, hl, truthyOpt_some, hpt, hd, hex]

theorem handleUpload_submission_new (st : Store) (uid : String) (content : JValue)
    (rest : Doc) (p : JValue) (qs lg : Option JValue)
    (hp : projectNameOf content = .ok (some p)) (hpt : truthy p = true)
    (hq : getProp content "questions" = .ok qs)
    (hl : getProp content "logic" = .ok lg)
    (hd : (truthyOpt qs || truthyOpt lg) = false)
    (hex : definitionExists st p = true)
    (hnew : submissionExists st uid = false) :
    handleUpload st ((uid, content) :: rest) =
      (.submissionSaved, insertSubmission st uid p ((uid, content) :: rest)) := by
  simp [handleUpload, hp, hq, hl, truthyOpt_some, hpt, hd, hex, hnew]

theorem handleUpload_submission_dup (st : Store) (uid : String) (content : JValue)
    (rest : Doc) (p : JValue) (qs lg : Option JValue)
    (hp : projectNameOf content = .ok (some p)) (hpt : truthy p = true)
    (hq : getProp content "questions" = .ok qs)
    (hl : getProp content "logic" = .ok lg)
    (hd : (truthyOpt qs || truthyOpt lg) = false)
    (hex : definitionExists st p = true)
    (hdup : submissionExists st uid = true) :
    handleUpload st ((uid, content) :: rest) = (.alreadySaved, st) := by
  simp [handleUpload, hp, hq, hl, truthyOpt_some, hpt, hd, hex, hdup]

theorem handleUpload_missing (st : Store) (uid : String) (content : JValue)
    (rest : Doc) (pn : Option JValue)
    (hp : projectNameOf content = .ok pn) (hpt : truthyOpt pn = false) :
    handleUpload st ((uid, content) :: rest) = (.missingProject, st) := by
  simp [handleUpload, hp, hpt]

theorem handleUpload_writes (st : Store) (body : Doc) :
    (handleUpload st body).2 = st ∨
    (∃ p, truthy p = true ∧ (handleUpload st body).2 = upsertDefinition st p body) ∨
    (∃ uid p, truthy p = true ∧
      (handleUpload st body).2 = insertSubmission st uid p body) := by
  rcases body with _ | ⟨⟨uid, content⟩, rest⟩
  · left; rfl
  · cases hpn : projectNameOf content with
    | error e => left; simp [handleUpload, hpn]
    | ok pn =>
      by_cases hpt : truthyOpt pn = true
      · cases pn with
        | none => simp [truthyOpt] at hpt
        | some p =>
          rw [truthyOpt_some] at hpt
          cases hq : getProp content "questions" with
          | error e => left; simp [handleUpload, hpn, truthyOpt_some, hpt, hq]
          | ok qs =>
            cases hl : getProp content "logic" with
            | error e2 => left; simp [handleUpload, hpn, truthyOpt_some, hpt, hq, hl]
            | ok lg =>
              by_cases hd : (truthyOpt qs || truthyOpt lg) = true
              · right; left
                exact ⟨p, hpt, by simp [handleUpload, hpn, truthyOpt_some, hpt, hq, hl, hd]⟩
              · by_cases hex : definitionExists st p = true
                · by_cases hdup : submissionExists st uid = true
                  · left
                    simp [handleUpload, hpn, truthyOpt_some, hpt, hq, hl, hd, hex, hdup]
                  · right; right
                    exact ⟨uid, p, hpt,
                      by simp [handleUpload, hpn, truthyOpt_some, hpt, hq, hl, hd, hex, hdup]⟩
                · left; simp [handleUpload, hpn, truthyOpt_some, hpt, hq, hl, hd, hex]
      · left; simp [handleUpload, hpn, hpt]

theorem filter_not_beq_idem (defs : List (JValue × Doc)) (p : JValue) :
    (defs.filter (fun d => !(JValue.beq d.1 p))).filter (fun d => !(JValue.beq d.1 p)) =
      defs.filter (fun d => !(JValue.beq d.1 p)) := by
  induction defs with
  | nil => rfl
  | cons d ds ih =>
      by_cases h : JValue.beq d.1 p = true <;> simp [List.filter, h, ih]

theorem filter_beq_of_filtered (defs : List (JValue × Doc)) (p : JValue) :
    (defs.filter (fun d => !(JValue.beq d.1 p))).filter (fun d => JValue.beq d.1 p) = [] := by
  induction defs with
  | nil => rfl
  | cons d ds ih =>
      by_cases h : JValue.beq d.1 p = true <;> simp [List.filter, h, ih]

theorem upsertDefinition_idem (st : Store) (p : JValue) (payload : Doc) :
    upsertDefinition (upsertDefinition st p payload) p payload =
      upsertDefinition st p payload := by
  simp [upsertDefinition, List.filter, JValue.beq_refl, filter_not_beq_idem]

/-- C1, as stated, is false: a document whose content has a truthy
`questions` field but no project name is answered 400 (missing project),
not 200 (definition stored). -/
theorem C1_counterexample :
    (handleUpload ⟨[], []⟩ [("X", JValue.obj [("questions", JValue.arr [JValue.num 1])])]).1 =
      Outcome.missingProject ∧
    Outcome.missingProject ≠ Outcome.definitionSaved ∧
    statusOf Outcome.missingProject = 400 := by
  exact ⟨rfl, by decide, rfl⟩

/-- C1 (amended): a document with a truthy `questions` or `logic` field
whose project-name extraction yields a truthy name is classified as a
Definition and answered 200 (definition stored) whatever the store state,
never taking the unknown-project path. -/
theorem C1_definition_priority (st : Store) (uid : String) (content : JValue)
    (rest : Doc) (p : JValue) (qs lg : Option JValue)
    (hp : projectNameOf content = .ok (some p)) (hpt : truthy p = true)
    (hq : getProp content "questions" = .ok qs)
    (hl : getProp content "logic" = .ok lg)
    (hd : (truthyOpt qs || truthyOpt lg) = true) :
    (handleUpload st ((uid, content) :: rest)).1 = Outcome.definitionSaved ∧
    statusOf (handleUpload st ((uid, content) :: rest)).1 = 200 ∧
    (handleUpload st ((uid, content) :: rest)).1 ≠ Outcome.unknownProject := by
  have h := handleUpload_definition st uid content rest p qs lg hp hpt hq hl hd
  rw [h]
  exact ⟨rfl, rfl, fun hc => Outcome.noConfusion hc⟩

/-- Witness for C1's amended theorem, on a store holding no definition at
all: the upload is still answered definition-stored. -/
theorem C1_witness :
    (handleUpload ⟨[], []⟩
        [("X", JValue.obj [("project", JValue.str "P"), ("questions", JValue.arr [JValue.num 1])])]).1 =
      Outcome.definitionSaved := by
  exact (C1_definition_priority ⟨[], []⟩ "X"
    (JValue.obj [("project", JValue.str "P"), ("questions", JValue.arr [JValue.num 1])])
    [] (JValue.str "P") (some (JValue.arr [JValue.num 1])) none rfl rfl rfl rfl rfl).1

/-- C2: for a submission document whose project has a stored definition,
the first upload with a fresh unique ID inserts exactly one row
(definitions untouched) and is answered 200; afterwards, any submission
upload carrying the same unique ID is answered 200 "already recorded" with
the store — rows and payloads — left exactly as it was. -/
theorem C2_submission_lifecycle (st : Store) (uid : String) (content : JValue)
    (rest : Doc) (p : JValue) (qs lg : Option JValue)
    (hp : projectNameOf content = .ok (some p)) (hpt : truthy p = true)
    (hq : getProp content "questions" = .ok qs)
    (hl : getProp content "logic" = .ok lg)
    (hd : (truthyOpt qs || truthyOpt lg) = false)
    (hex : definitionExists st p = true)
    (hnew : submissionExists st uid = false) :
    handleUpload st ((uid, content) :: rest) =
      (.submissionSaved, insertSubmission st uid p ((uid, content) :: rest)) ∧
    (insertSubmission st uid p ((uid, content) :: rest)).submissions =
      ⟨uid, p, (uid, content) :: rest⟩ :: st.submissions ∧
    (insertSubmission st uid p ((uid, content) :: rest)).definitions = st.definitions ∧
    statusOf Outcome.submissionSaved = 200 ∧ statusOf Outcome.alreadySaved = 200 ∧
    ∀ (content2 : JValue) (rest2 : Doc) (p2 : JValue) (qs2 lg2 : Option JValue),
      projectNameOf content2 = .ok (some p2) → truthy p2 = true →
      getProp content2 "questions" = .ok qs2 →
      getProp content2 "logic" = .ok lg2 →
      (truthyOpt qs2 || truthyOpt lg2) = false →
      definitionExists (insertSubmission st uid p ((uid, content) :: rest)) p2 = true →
      handleUpload (insertSubmission st uid p ((uid, content) :: rest))
          ((uid, content2) :: rest2) =
        (.alreadySaved, insertSubmission st uid p ((uid, content) :: rest)) := by
  refine ⟨handleUpload_submission_new st uid content rest p qs lg hp hpt hq hl hd hex hnew,
    rfl, rfl, rfl, rfl, ?_⟩
  intro content2 rest2 p2 qs2 lg2 hp2 hpt2 hq2 hl2 hd2 hex2
  refine handleUpload_submission_dup _ uid content2 rest2 p2 qs2 lg2 hp2 hpt2 hq2 hl2 hd2 hex2 ?_
  simp [submissionExists, insertSubmission]

/-- Witness for C2: project "P" is defined; submission "S1" is stored once
and the identical re-upload is answered already-saved with no change. -/
theorem C2_witness :
    handleUpload ⟨[(JValue.str "P", [])], []⟩
        [("S1", JValue.obj [("project", JValue.str "P")])] =
      (.submissionSaved,
        ⟨[(JValue.str "P", [])],
         [⟨"S1", JValue.str "P", [("S1", JValue.obj [("project", JValue.str "P")])]⟩]⟩) ∧
    handleUpload
        ⟨[(JValue.str "P", [])],
         [⟨"S1", JValue.str "P", [("S1", JValue.obj [("project", JValue.str "P")])]⟩]⟩
        [("S1", JValue.obj [("project", JValue.str "P")])] =
      (.alreadySaved,
        ⟨[(JValue.str "P", [])],
         [⟨"S1", JValue.str "P", [("S1", JValue.obj [("project", JValue.str "P")])]⟩]⟩) := by
  have h := C2_submission_lifecycle ⟨[(JValue.str "P", [])], []⟩ "S1"
    (JValue.obj [("project", JValue.str "P")]) [] (JValue.str "P") none none
    rfl rfl rfl rfl rfl (by simp [definitionExists, JValue.beq]) rfl
  exact ⟨h.1, h.2.2.2.2.2 (JValue.obj [("project", JValue.str "P")]) [] (JValue.str "P")
    none none rfl rfl rfl rfl rfl (by simp [definitionExists, insertSubmission, JValue.beq])⟩

/-- C3: a submission document (no truthy `questions`/`logic`) whose truthy
project name has no stored definition is answered 412 (unknown project)
and the store — in particular the submissions table — is left unchanged. -/
theorem C3_unknown_project (st : Store) (uid : String) (content : JValue)
    (rest : Doc) (p : JValue) (qs lg : Option JValue)
    (hp : projectNameOf content = .ok (some p)) (hpt : truthy p = true)
    (hq : getProp content "questions" = .ok qs)
    (hl : getProp content "logic" = .ok lg)
    (hd : (truthyOpt qs || truthyOpt lg) = false)
    (hex : definitionExists st p = false) :
    handleUpload st ((uid, content) :: rest) = (.unknownProject, st) ∧
    statusOf Outcome.unknownProject = 412 ∧
    (handleUpload st ((uid, content) :: rest)).2.submissions = st.submissions := by
  have h := handleUpload_unknown st uid content rest p qs lg hp hpt hq hl hd hex
  rw [h]
  exact ⟨rfl, rfl, rfl⟩

/-- Witness for C3: a submission for the unregistered project "Ghost"
against the empty store. -/
theorem C3_witness :
    handleUpload ⟨[], []⟩ [("Sub-2", JValue.obj [("project", JValue.str "Ghost")])] =
      (.unknownProject, ⟨[], []⟩) := by
  exact (C3_unknown_project ⟨[], []⟩ "Sub-2"
    (JValue.obj [("project", JValue.str "Ghost")]) [] (JValue.str "Ghost")
    none none rfl rfl rfl rfl rfl rfl).1

/-- C4: uploading the same definition document twice leaves exactly one
definition record for its project, and that record's payload is the entire
original document; the second upsert changes nothing (idempotent
last-write-wins replacement, not a merge). -/
theorem C4_definition_upsert_idempotent (st : Store) (uid : String)
    (content : JValue) (rest : Doc) (p : JValue) (qs lg : Option JValue)
    (hp : projectNameOf content = .ok (some p)) (hpt : truthy p = true)
    (hq : getProp content "questions" = .ok qs)
    (hl : getProp content "logic" = .ok lg)
    (hd : (truthyOpt qs || truthyOpt lg) = true) :
    handleUpload st ((uid, content) :: rest) =
      (.definitionSaved, upsertDefinition st p ((uid, content) :: rest)) ∧
    handleUpload (upsertDefinition st p ((uid, content) :: rest)) ((uid, content) :: rest) =
      (.definitionSaved, upsertDefinition st p ((uid, content) :: rest)) ∧
    (upsertDefinition st p ((uid, content) :: rest)).definitions.filter
        (fun d => JValue.beq d.1 p) =
      [(p, (uid, content) :: rest)] := by
  refine ⟨handleUpload_definition st uid content rest p qs lg hp hpt hq hl hd, ?_, ?_⟩
  · have h := handleUpload_definition (upsertDefinition st p ((uid, content) :: rest))
      uid content rest p qs lg hp hpt hq hl hd
    rw [h, upsertDefinition_idem]
  · simp [upsertDefinition, List.filter, JValue.beq_refl, filter_beq_of_filtered]

/-- Witness for C4, over a store already holding an older definition for
the same project "P": the re-uploaded document replaces it wholesale. -/
theorem C4_witness :
    handleUpload ⟨[(JValue.str "P", [("old", JValue.null)])], []⟩
        [("X", JValue.obj [("project", JValue.str "P"), ("logic", JValue.obj [])])] =
      (.definitionSaved,
        ⟨[(JValue.str "P",
           [("X", JValue.obj [("project", JValue.str "P"), ("logic", JValue.obj [])])])], []⟩) ∧
    (⟨[(JValue.str "P",
        [("X", JValue.obj [("project", JValue.str "P"), ("logic", JValue.obj [])])])], []⟩ :
        Store).definitions.filter
        (fun d => JValue.beq d.1 (JValue.str "P")) =
      [(JValue.str "P",
        [("X", JValue.obj [("project", JValue.str "P"), ("logic", JValue.obj [])])])] := by
  have h := C4_definition_upsert_idempotent
    ⟨[(JValue.str "P", [("old", JValue.null)])], []⟩ "X"
    (JValue.obj [("project", JValue.str "P"), ("logic", JValue.obj [])]) []
    (JValue.str "P") none (some (JValue.obj [])) rfl rfl rfl rfl rfl
  refine ⟨?_, ?_⟩
  · rw [h.1]
    rfl
  · exact h.2.2

/-- C5, as stated, is false: a document with two top-level keys is not
rejected as malformed — here it is accepted and stored as a definition
(200), the first key serving as the unique ID. -/
theorem C5_counterexample :
    (handleUpload ⟨[], []⟩
        [("A", JValue.obj [("project", JValue.str "P"), ("questions", JValue.arr [])]),
         ("B", JValue.null)]).1 = Outcome.definitionSaved ∧
    Outcome.definitionSaved ≠ Outcome.emptyJson ∧
    statusOf Outcome.definitionSaved = 200 := by
  exact ⟨rfl, by decide, rfl⟩

/-- C5 (amended): only the empty document is rejected as malformed (400)
with no store mutation; a document with two or more top-level keys
proceeds, and its outcome is exactly that of the document restricted to
its first key-value pair (the extra keys influence only the stored
payload). -/
theorem C5_envelope (st : Store) :
    handleUpload st [] = (.emptyJson, st) ∧
    statusOf Outcome.emptyJson = 400 ∧
    ∀ (k : String) (c : JValue) (rest : Doc),
      (handleUpload st ((k, c) :: rest)).1 = (handleUpload st [(k, c)]).1 := by
  refine ⟨rfl, rfl, fun k c rest => ?_⟩
  cases hpn : projectNameOf c with
  | error e => simp [handleUpload, hpn]
  | ok pn =>
    by_cases hpt : truthyOpt pn = true
    · cases hq : getProp c "questions" with
      | error e => simp [handleUpload, hpn, hpt, hq]
      | ok qs =>
        cases hl : getProp c "logic" with
        | error e2 => simp [handleUpload, hpn, hpt, hq, hl]
        | ok lg =>
          by_cases hd : (truthyOpt qs || truthyOpt lg) = true
          · simp [handleUpload, hpn, hpt, hq, hl, hd]
          · by_cases hex : definitionExists st (pn.getD .null) = true
            · by_cases hdup : submissionExists st k = true
              · simp [handleUpload, hpn, hpt, hq, hl, hd, hex, hdup]
              · simp [handleUpload, hpn, hpt, hq, hl, hd, hex, hdup]
            · simp [handleUpload, hpn, hpt, hq, hl, hd, hex]
    · simp [handleUpload, hpn, hpt]

/-- C6, as stated, is false: the document with body mapping "X" to `null`
has neither `content.project` nor `content.quiz.project`, yet it is
answered 500 (the property read throws), not 400 missing-project. -/
theorem C6_counterexample :
    handleUpload ⟨[], []⟩ [("X", JValue.null)] = (.internalError, ⟨[], []⟩) ∧
    hasField JValue.null "project" = false ∧
    hasField JValue.null "quiz" = false ∧
    Outcome.internalError ≠ Outcome.missingProject ∧
    statusOf Outcome.internalError = 500 := by
  exact ⟨rfl, rfl, rfl, by decide, rfl⟩

/-- C6 (amended): for non-null content carrying neither `content.project`
nor `content.quiz.project`, the handler answers 400 missing-project and
mutates nothing; and when `content.project` is absent but
`content.quiz.project` is present, extraction reads the project name from
`content.quiz.project`. -/
theorem C6_project_extraction :
    (∀ (st : Store) (uid : String) (content : JValue) (rest : Doc),
      content ≠ JValue.null →
      hasField content "project" = false →
      (∀ q, getPropD content "quiz" = some q → hasField q "project" = false) →
      handleUpload st ((uid, content) :: rest) = (.missingProject, st)) ∧
    (∀ (content q v : JValue),
      hasField content "project" = false →
      getPropD content "quiz" = some q →
      getPropD q "project" = some v →
      projectNameOf content = .ok (some v)) := by
  constructor
  · intro st uid content rest hnn hpf hqf
    have hpd : getPropD content "project" = none := by
      cases h : getPropD content "project" with
      | none => rfl
      | some x => rw [hasField, h] at hpf; simp at hpf
    have hpn := projectNameOf_of_ne_null content hnn
    rw [hpd] at hpn
    simp only [truthyOpt_none, Bool.false_eq_true, if_false] at hpn
    refine handleUpload_missing st uid content rest _ hpn ?_
    unfold quizProjectD
    cases hq : getPropD content "quiz" with
    | none => rfl
    | some q =>
      by_cases htq : truthy q = true
      · have hqp := hqf q hq
        have hqpd : getPropD q "project" = none := by
          cases h2 : getPropD q "project" with
          | none => rfl
          | some x => rw [hasField, h2] at hqp; simp at hqp
        simp [htq, hqpd, truthyOpt_none]
      · simp only [Bool.not_eq_true] at htq
        simp [htq, truthyOpt_some]
  · intro content q v hpf hq hqp
    have hnn := getPropD_some_ne_null content "quiz" q hq
    have hpd : getPropD content "project" = none := by
      cases h : getPropD content "project" with
      | none => rfl
      | some x => rw [hasField, h] at hpf; simp at hpf
    have hpn := projectNameOf_of_ne_null content hnn
    rw [hpd] at hpn
    simp only [truthyOpt_none, Bool.false_eq_true, if_false] at hpn
    rw [hpn]
    unfold quizProjectD
    rw [hq]
    show Except.ok (if truthy q = true then getPropD q "project" else some q) =
      Except.ok (some v)
    rw [getPropD_some_truthy q "project" v hqp, if_pos rfl, hqp]

/-- Witness for C6's amended theorem: a content with a single unrelated
field is answered 400 missing-project on the empty store, and in a content
whose quiz object carries project "P" the extraction reads "P". -/
theorem C6_witness :
    handleUpload ⟨[], []⟩ [("X", JValue.obj [("a", JValue.num 1)])] =
      (.missingProject, ⟨[], []⟩) ∧
    projectNameOf (JValue.obj [("quiz", JValue.obj [("project", JValue.str "P")])]) =
      .ok (some (JValue.str "P")) := by
  constructor
  · exact C6_project_extraction.1 ⟨[], []⟩ "X" (JValue.obj [("a", JValue.num 1)]) []
      (by simp) rfl (fun q hq => Option.noConfusion hq)
  · exact C6_project_extraction.2 (JValue.obj [("quiz", JValue.obj [("project", JValue.str "P")])])
      (JValue.obj [("project", JValue.str "P")]) (JValue.str "P") rfl rfl rfl

/-- C7: the outcome-to-status mapping is total and exclusive — 200 exactly
on definition stored, submission stored or duplicate submission; 400
exactly on malformed input or missing project name; 412 exactly on unknown
project; 500 exactly on the unexpected-failure outcome. -/
theorem C7_status_mapping :
    ∀ o : Outcome,
      (statusOf o = 200 ↔
        (o = .definitionSaved ∨ o = .submissionSaved ∨ o = .alreadySaved)) ∧
      (statusOf o = 400 ↔ (o = .emptyJson ∨ o = .missingProject)) ∧
      (statusOf o = 412 ↔ o = .unknownProject) ∧
      (statusOf o = 500 ↔ o = .internalError) := by
  intro o
  cases o <;> simp [statusOf]

/-- C8: each ingestion request performs at most one store mutation — the
store is unchanged, or exactly one definition upsert happened (submissions
untouched), or exactly one submission insert happened (definitions
untouched); never both. -/
theorem C8_at_most_one_mutation (st : Store) (body : Doc) :
    (handleUpload st body).2 = st ∨
    (∃ p, (handleUpload st body).2 = upsertDefinition st p body ∧
      (upsertDefinition st p body).submissions = st.submissions) ∨
    (∃ uid p, (handleUpload st body).2 = insertSubmission st uid p body ∧
      (insertSubmission st uid p body).definitions = st.definitions) := by
  rcases handleUpload_writes st body with h | ⟨p, _, h⟩ | ⟨uid, p, _, h⟩
  · exact Or.inl h
  · exact Or.inr (Or.inl ⟨p, h, rfl⟩)
  · exact Or.inr (Or.inr ⟨uid, p, h, rfl⟩)

/-- C9: a document whose first top-level value is `null` makes project-name
extraction throw, so the handler answers the generic 500 (not 400) and
mutates nothing. -/
theorem C9_null_content (st : Store) (uid : String) (rest : Doc) :
    handleUpload st ((uid, JValue.null) :: rest) = (.internalError, st) ∧
    statusOf Outcome.internalError = 500 ∧
    statusOf Outcome.internalError ≠ 400 := by
  exact ⟨rfl, rfl, by decide⟩

/-- C10: project-name presence is decided by truthiness — a present but
falsy `content.project` with an absent-or-falsy quiz fallback is answered
400 missing-project with no mutation, and no run of the handler ever adds
a definition or submission row whose project name is falsy. -/
theorem C10_truthiness_gate (st : Store) (uid : String) (content : JValue)
    (rest : Doc) (pv : JValue)
    (h1 : getPropD content "project" = some pv)
    (h2 : truthy pv = false)
    (h3 : truthyOpt (quizProjectD content) = false) :
    handleUpload st ((uid, content) :: rest) = (.missingProject, st) ∧
    statusOf Outcome.missingProject = 400 ∧
    (∀ (st2 : Store) (body : Doc) (d : JValue × Doc),
      d ∈ (handleUpload st2 body).2.definitions →
      d ∈ st2.definitions ∨ truthy d.1 = true) ∧
    (∀ (st2 : Store) (body : Doc) (r : SubmissionRow),
      r ∈ (handleUpload st2 body).2.submissions →
      r ∈ st2.submissions ∨ truthy r.project_name = true) := by
  refine ⟨?_, rfl, ?_, ?_⟩
  · have hnn := getPropD_some_ne_null content "project" pv h1
    have hpn := projectNameOf_of_ne_null content hnn
    rw [h1, truthyOpt_some, h2] at hpn
    simp only [Bool.false_eq_true, if_false] at hpn
    exact handleUpload_missing st uid content rest _ hpn h3
  · intro st2 body d hd
    rcases handleUpload_writes st2 body with h | ⟨p, hpt, h⟩ | ⟨uid2, p, hpt, h⟩
    · rw [h] at hd; exact Or.inl hd
    · rw [h] at hd
      rcases List.mem_cons.1 hd with he | hm
      · right; rw [he]; exact hpt
      · exact Or.inl (List.mem_of_mem_filter hm)
    · rw [h] at hd; exact Or.inl hd
  · intro st2 body r hr
    rcases handleUpload_writes st2 body with h | ⟨p, hpt, h⟩ | ⟨uid2, p, hpt, h⟩
    · rw [h] at hr; exact Or.inl hr
    · rw [h] at hr; exact Or.inl hr
    · rw [h] at hr
      rcases List.mem_cons.1 hr with he | hm
      · right; rw [he]; exact hpt
      · exact Or.inl hm

/-- Witness for C10: the empty-string project name is falsy, so a content
whose project field is the empty string is answered 400 missing-project
with the store unchanged. -/
theorem C10_witness :
    handleUpload ⟨[], []⟩ [("X", JValue.obj [("project", JValue.str "")])] =
      (.missingProject, ⟨[], []⟩) := by
  exact (C10_truthiness_gate ⟨[], []⟩ "X" (JValue.obj [("project", JValue.str "")])
    [] (JValue.str "") rfl rfl rfl).1
